import Mathlib

/-!
Shallow embedding of the transaction admission pipeline (ante handler) of
`app/v1/auth/ante.go`, together with the external collaborator contracts it
relies on (coins arithmetic, gas meter, account store, fee collector), and
proofs of the specification claims about it.

Machine integers are modelled as `Nat` (Go `uint64` gas and sequence
numbers) and `Int` (coin amounts).  Go panics are modelled as the `.error`
branch of an `Except PanicKind` value threaded through the pipeline, with
the gas meter state at panic time returned alongside, mirroring the fact
that in Go the meter is a shared mutable object that the deferred recover
reads after the unwind.
-/

namespace Irishub

/-! ## Coins

Modelled from the spec: the repository's `sdk.Coins` type (a list of
denomination/amount pairs) with the operations the ante handler uses:
`SafeSub`, `IsZero`, `IsAllGTE` and addition for the fee collector.  The
implementation of `sdk.Coins` is not part of the excerpt; the operations
follow the spec's words ("the declared fee amount must be ≥ the floor for
every denomination", "insufficient balance aborts", ...).
-/

/-- A coin collection: denomination with (possibly negative, `Int`) amount. -/
abbrev Coins : Type := List (String × Int)

/-- Total amount a coin collection holds of one denomination. -/
def Coins.amountOf (cs : Coins) (d : String) : Int :=
  ((cs.filter (fun c => c.1 = d)).map (fun c => c.2)).sum

/-- The (deduplicated) list of denominations mentioned by either collection. -/
def Coins.denomsOf (a b : Coins) : List String :=
  (a.map (fun c => c.1) ++ b.map (fun c => c.1)).dedup

/-- Modelled from the spec: `Coins.SafeSub` — pointwise difference over every
denomination either side mentions, together with a flag telling whether any
resulting amount is negative. -/
def Coins.safeSub (a b : Coins) : Coins × Bool :=
  let res : List (String × Int) :=
    (Coins.denomsOf a b).map (fun d => (d, a.amountOf d - b.amountOf d))
  (res, res.any (fun c => c.2 < 0))

/-- Modelled from the spec: `Coins.IsZero` — every listed amount is zero. -/
def Coins.isZero (cs : Coins) : Bool :=
  cs.all (fun c => c.2 == 0)

/-- Modelled from the spec: `Coins.IsAllGTE` — for every denomination of `b`,
`a` holds at least that amount. -/
def Coins.isAllGTE (a b : Coins) : Bool :=
  b.all (fun c => a.amountOf c.1 ≥ c.2)

/-- Modelled from the spec: coin addition, used by the fee collector. -/
def Coins.add (a b : Coins) : Coins :=
  (Coins.denomsOf a b).map (fun d => (d, a.amountOf d + b.amountOf d))

/-- Render a coin collection for error messages. -/
def Coins.render (cs : Coins) : String :=
  String.intercalate "," (cs.map (fun c => toString c.2 ++ c.1))

/-! ## Public keys and signatures

The source dispatches on the runtime type name of the key
(`ed25519`, `secp256k1`, `multisigthreshold`, or anything else); we model
this as a closed variant with an extra `unrecognized` case for the
`default` branch of the `switch`.  Each constructor carries the address
the key derives to (`pubKey.Address()` in Go).  `Sig.multi` stands for
signature bytes that amino-decode to a `multisig.Multisignature`
(inclusion bit array plus partial signatures); `Sig.raw` stands for any
bytes that do not. -/

inductive PubKey : Type where
  | ed25519 (addr : Nat)
  | secp256k1 (addr : Nat)
  | multisigThreshold (addr : Nat) (pubKeys : List PubKey)
  | unrecognized (addr : Nat) (typeName : String)

/-- The address a public key derives to (`pubKey.Address()`). -/
def PubKey.address : PubKey → Nat
  | .ed25519 a => a
  | .secp256k1 a => a
  | .multisigThreshold a _ => a
  | .unrecognized a _ => a

/-- Signature bytes: either bytes decoding to a multisignature, or raw bytes. -/
inductive Sig : Type where
  | raw (bytes : List Nat)
  | multi (bitArray : List Bool) (sigs : List Sig)

/-- The fixed secp256k1 placeholder key substituted in simulate mode when an
account has no stored key yet (`dummySecp256k1Pubkey`, initialised from a
hard-coded 33-byte compressed key). -/
def dummySecp256k1Pubkey : PubKey :=
  .secp256k1 0x035AD6810A47F073553FF30D2FCC7E0D3B1C0B74B61A1AAA2582344037151E143A

/-! ## Accounts and transactions -/

/-- An account: address, optional public key, balances, immutable account
number, and replay-protection sequence number. -/
structure Account : Type where
  address : Nat
  pubKey : Option PubKey
  coins : Coins
  accountNumber : Nat
  sequence : Nat

/-- A `StdSignature`: optional public key, signature bytes, claimed account
number and claimed sequence. -/
structure StdSignature : Type where
  pubKey : Option PubKey
  signature : Sig
  accountNumber : Nat
  sequence : Nat

/-- A `StdFee`: declared fee amount and declared gas limit. -/
structure StdFee : Type where
  amount : Coins
  gas : Nat

/-- A `StdTx`: messages (abstracted to identifiers), fee, signatures, memo. -/
structure StdTx : Type where
  msgs : List Nat
  fee : StdFee
  signatures : List StdSignature
  memo : String

/-- A transaction handed to the ante handler: either a `StdTx` or some other
`sdk.Tx` implementation (the type gate rejects the latter). -/
inductive Tx : Type where
  | std (stdTx : StdTx)
  | nonStd

/-- Declared gas of a transaction (`stdTx.Fee.Gas`; unused for non-std). -/
def Tx.gas : Tx → Nat
  | .std t => t.fee.gas
  | .nonStd => 0

/-! ## Errors, results and panics -/

/-- The `sdk` error kinds the ante handler produces. -/
inductive Err : Type where
  | internal (msg : String)
  | invalidSequence (msg : String)
  | unknownAddress (msg : String)
  | insufficientFee (msg : String)
  | insufficientFunds (msg : String)
  | invalidPubKey (msg : String)
  | unauthorized (msg : String)
  | outOfGas (msg : String)
deriving DecidableEq

/-- An `sdk.Result`: error status (`none` = OK) plus gas accounting. -/
structure Result : Type where
  err : Option Err
  gasWanted : Nat
  gasUsed : Nat
deriving DecidableEq

/-- Build a `Result` from an error (`err.Result()` in Go). -/
def errResult (e : Err) : Result := ⟨some e, 0, 0⟩

/-- A Go panic: either the distinguished out-of-gas signal raised by the gas
meter (carrying its descriptor), or any other runtime panic (slice index out
of range, amino decode failure, ...). -/
inductive PanicKind : Type where
  | outOfGas (descriptor : String)
  | other (msg : String)
deriving DecidableEq

/-! ## Gas meter

The constants `gasBase`/`gasShift` are the source's; the meter itself
(`NewInfiniteGasMeter`, `NewGasMeterWithBase`) lives outside the excerpt. -/

/-- Gas verification cost for an ed25519 key (source constant). -/
def ed25519VerifyCost : Nat := 59

/-- Gas verification cost for a secp256k1 key (source constant). -/
def secp256k1VerifyCost : Nat := 100

/-- Gas logarithm base (source constant `gasBase = 1.02`). -/
def gasBase : ℚ := 1.02

/-- Gas logarithm shift (source constant `gasShift = 285`). -/
def gasShift : Nat := 285

/-- Whether `gasBase ^ k ≤ g`, stated over naturals: `1.02 ^ k ≤ g` iff
`102 ^ k ≤ g * 100 ^ k`. -/
def gasPowLe (g k : Nat) : Bool := 102 ^ k ≤ g * 100 ^ k

/-- Largest `k ≤ fuel` with `gasPowLe g k`, i.e. the floor of
`log g / log 1.02` once the fuel dominates it. -/
def gasLogAux (g : Nat) : Nat → Nat
  | 0 => 0
  | k + 1 => if gasPowLe g (k + 1) then k + 1 else gasLogAux g k

/-- Floor of `log g / log gasBase` (`log(gas)/log(1.02)`). -/
def gasLog (g : Nat) : Nat := gasLogAux g (50 * (Nat.log2 g + 1))

/-- Modelled from the spec: the effective limit installed by
`NewGasMeterWithBase` — "if gas > gasShift, gas = log(gas)/log(gasBase),
else gasConsumed = gas". -/
def effectiveGasLimit (gasLimit : Nat) : Nat :=
  if gasLimit ≤ gasShift then gasLimit else gasLog gasLimit

/-- A gas meter: infinite flag, effective limit, consumed-so-far counter. -/
structure GasMeter : Type where
  infinite : Bool
  limit : Nat
  consumed : Nat
deriving DecidableEq

/-- Modelled from the spec: `NewInfiniteGasMeter` — a meter that never aborts. -/
def newInfiniteGasMeter : GasMeter := ⟨true, 0, 0⟩

/-- Modelled from the spec: `NewGasMeterWithBase gasLimit gasBase gasShift` —
a bounded meter whose effective limit applies the non-linear model. -/
def newGasMeterWithBase (gasLimit : Nat) : GasMeter :=
  ⟨false, effectiveGasLimit gasLimit, 0⟩

/-- Modelled from the spec: `ConsumeGas` — add to the consumed counter; a
bounded meter whose consumption now exceeds its limit raises the out-of-gas
signal (returned as `some descriptor`; the updated meter is returned either
way, as the recover boundary reads `GasConsumed()` after the unwind). -/
def GasMeter.consumeGas (m : GasMeter) (amount : Nat) (descriptor : String) :
    GasMeter × Option String :=
  let m2 : GasMeter := { m with consumed := m.consumed + amount }
  if !m2.infinite && m2.limit < m2.consumed then (m2, some descriptor)
  else (m2, none)

/-! ## Context, state, and external collaborators -/

/-- The per-invocation `sdk.Context` slice the ante handler reads/writes. -/
structure Ctx : Type where
  chainID : String
  blockHeight : Int
  isCheckTx : Bool
  minimumFees : Coins
  gasMeter : GasMeter
  signers : List Account

/-- The account store exposed by the `AccountKeeper` (address → account). -/
def Store : Type := Nat → Option Account

/-- Persisted chain state touched by the pipeline: the account store and the
fee collector's accumulated fees. -/
structure ChainState : Type where
  store : Store
  collectedFees : Coins

/-- Modelled from the spec: `am.SetAccount` — point update of the store. -/
def setAccount (store : Store) (acc : Account) : Store :=
  fun a => if a = acc.address then some acc else store a

/-- External collaborators of the pipeline, specified only at their interface
boundary (spec §6): `tx.ValidateBasic`, `stdTx.GetSigners` (derived from the
message set), the canonical `StdSignBytes` serialization, and the
cryptographic `pubKey.VerifyBytes`. -/
structure AnteEnv : Type where
  validateBasic : StdTx → Option Err
  getSigners : List Nat → List Nat
  stdSignBytes : String → Nat → Nat → StdFee → List Nat → String → List Nat
  verify : PubKey → List Nat → Sig → Bool

/-! ## Stage functions (from `ante.go`) -/

/-- Source `setGasMeter`: infinite in simulate mode or at genesis height,
otherwise bounded by the declared limit under the non-linear model. -/
def setGasMeter (simulate : Bool) (ctx : Ctx) (gasLimit : Nat) : Ctx :=
  if simulate || ctx.blockHeight == 0 then { ctx with gasMeter := newInfiniteGasMeter }
  else { ctx with gasMeter := newGasMeterWithBase gasLimit }

/-- Source `getSignerAccs`: load each signer's account; a missing account is
an unknown-address rejection. -/
def getSignerAccs (store : Store) : List Nat → Except Err (List Account)
  | [] => .ok []
  | addr :: addrs =>
    match store addr with
    | none => .error (.unknownAddress (toString addr))
    | some acc =>
      match getSignerAccs store addrs with
      | .error e => .error e
      | .ok accs => .ok (acc :: accs)

/-- Source `validateAccNumAndSequence`: for every signer in order, check the
genesis account-number rule, the account-number match, and the exact
sequence match; first violation returns an invalid-sequence error. -/
def validateAccNumAndSequence (blockHeight : Int) :
    List Account → List StdSignature → Option Err
  | acc :: accs, sig :: sigs =>
    if blockHeight == 0 && sig.accountNumber != 0 then
      some (.invalidSequence
        ("Invalid account number for BlockHeight == 0. Got " ++
          toString sig.accountNumber ++ ", expected 0"))
    else if blockHeight != 0 && acc.accountNumber != sig.accountNumber then
      some (.invalidSequence
        ("Invalid account number. Got " ++ toString sig.accountNumber ++
          ", expected " ++ toString acc.accountNumber))
    else if acc.sequence != sig.sequence then
      some (.invalidSequence
        ("Invalid sequence. Got " ++ toString sig.sequence ++
          ", expected " ++ toString acc.sequence))
    else validateAccNumAndSequence blockHeight accs sigs
  | _, _ => none

/-- Source `processPubKey`: resolve the signer's public key.  In simulate
mode a missing stored key is replaced by the fixed secp256k1 placeholder;
otherwise the stored key wins, and a key carried in the signature is adopted
only if its derived address matches the account. -/
def processPubKey (acc : Account) (sig : StdSignature) (simulate : Bool) :
    Except Err PubKey :=
  let pubKey := acc.pubKey
  if simulate then
    match pubKey with
    | none => .ok dummySecp256k1Pubkey
    | some pk => .ok pk
  else
    match pubKey with
    | some pk => .ok pk
    | none =>
      match sig.pubKey with
      | none => .error (.invalidPubKey "PubKey not found")
      | some pk =>
        if pk.address ≠ acc.address then
          .error (.invalidPubKey
            ("PubKey does not match Signer address " ++ toString acc.address))
        else .ok pk

lemma length_lt_sizeOf_listBool (l : List Bool) : l.length < sizeOf l := by
  induction l with
  | nil => simp
  | cons b t ih => simp; omega

lemma tail_sizeOf_le_listPubKey (l : List PubKey) : sizeOf l.tail ≤ sizeOf l := by
  cases l with
  | nil => simp
  | cons k t => simp

mutual

/-- Source `consumeSignatureVerificationGas`: dispatch on the key type;
fixed costs for the single-key schemes, recursive bitmap-driven cost for a
threshold multisig (whose signature bytes must amino-decode, else the Go
`MustUnmarshalBinaryBare` panics), and an invalid-public-key error for an
unrecognized type.  Out-of-gas from the meter propagates as a panic. -/
def consumeSignatureVerificationGas (meter : GasMeter) (sig : Sig) (pubkey : PubKey) :
    GasMeter × Except PanicKind (Option Err) :=
  match pubkey with
  | .ed25519 _ =>
    match meter.consumeGas ed25519VerifyCost "ante verify: ed25519" with
    | (m, some d) => (m, .error (.outOfGas d))
    | (m, none) => (m, .ok none)
  | .secp256k1 _ =>
    match meter.consumeGas secp256k1VerifyCost "ante verify: secp256k1" with
    | (m, some d) => (m, .error (.outOfGas d))
    | (m, none) => (m, .ok none)
  | .multisigThreshold _ pubKeys =>
    match sig with
    | .raw _ => (meter, .error (.other "amino: multisignature decode failed"))
    | .multi bits sigs =>
      match consumeMultisignatureVerificationGas meter bits sigs pubKeys with
      | (m, some p) => (m, .error p)
      | (m, none) => (m, .ok none)
  | .unrecognized _ typeName =>
    (meter, .ok (some (.invalidPubKey ("unrecognized public key type: " ++ typeName))))
termination_by sizeOf sig + sizeOf pubkey
decreasing_by
  all_goals simp_wf
  all_goals have h1 := length_lt_sizeOf_listBool bits
  all_goals omega

/-- Source `consumeMultisignatureVerificationGas`: walk the inclusion bitmap;
for each set bit consume the cost of the member key at that position against
the next partial signature, discarding the inner result.  Accessing a
partial signature or member key past the end of its slice is a Go
index-out-of-range panic. -/
def consumeMultisignatureVerificationGas (meter : GasMeter) :
    List Bool → List Sig → List PubKey → GasMeter × Option PanicKind
  | [], _, _ => (meter, none)
  | true :: bits, s :: sigs, k :: keys =>
    match consumeSignatureVerificationGas meter s k with
    | (m, .error p) => (m, some p)
    | (m, .ok _) => consumeMultisignatureVerificationGas m bits sigs keys
  | true :: _, _, _ => (meter, some (.other "runtime error: index out of range"))
  | false :: bits, sigs, keys =>
    consumeMultisignatureVerificationGas meter bits sigs keys.tail
termination_by bits sigs keys => sizeOf sigs + sizeOf keys + bits.length
decreasing_by
  all_goals simp_wf
  all_goals have h1 := tail_sizeOf_le_listPubKey keys
  all_goals omega

end

/-- Source `processSig`: resolve the public key, set it on the account,
charge verification gas, verify the signature bytes unless simulating, and
increment the sequence by one.  The meter state is returned alongside;
`.error` is a panic escaping the call. -/
def processSig (verify : PubKey → List Nat → Sig → Bool) (meter : GasMeter)
    (acc : Account) (sig : StdSignature) (signBytes : List Nat) (simulate : Bool) :
    GasMeter × Except PanicKind (Except Err Account) :=
  match processPubKey acc sig simulate with
  | .error e => (meter, .ok (.error e))
  | .ok pubKey =>
    let acc2 : Account := { acc with pubKey := some pubKey }
    match consumeSignatureVerificationGas meter sig.signature pubKey with
    | (m, .error p) => (m, .error p)
    | (m, .ok (some e)) => (m, .ok (.error e))
    | (m, .ok none) =>
      if !simulate && !(verify pubKey signBytes sig.signature) then
        (m, .ok (.error (.unauthorized "signature verification failed")))
      else
        (m, .ok (.ok { acc2 with sequence := acc2.sequence + 1 }))

/-- Source `deductFees`: subtract the fee from the account's coins; any
negative result is an insufficient-funds rejection, otherwise the debited
account is returned. -/
def deductFees (acc : Account) (fee : StdFee) : Except Err Account :=
  let coins := acc.coins
  let feeAmount := fee.amount
  match Coins.safeSub coins feeAmount with
  | (_, true) =>
    .error (.insufficientFunds
      ("account balance [" ++ Coins.render coins ++ "] is not enough to cover fee [" ++
        Coins.render feeAmount ++ "]"))
  | (newCoins, false) => .ok { acc with coins := newCoins }

/-- Source `ensureSufficientMempoolFees`: declared gas must be positive, and
if a nonzero minimum-fee floor is configured the declared fee must be at
least the floor for every denomination. -/
def ensureSufficientMempoolFees (ctx : Ctx) (stdTx : StdTx) : Option Err :=
  if stdTx.fee.gas ≤ 0 then
    some (.internal ("invalid gas supplied: " ++ toString stdTx.fee.gas))
  else if !(Coins.isZero ctx.minimumFees) &&
      !(Coins.isAllGTE stdTx.fee.amount ctx.minimumFees) then
    some (.insufficientFee
      ("insufficient fee, got: " ++ Coins.render stdTx.fee.amount ++
        " required: " ++ Coins.render ctx.minimumFees))
  else none

/-- Source `getSignBytesList`: one canonical sign-bytes blob per signature,
varying in the claimed account number and sequence. -/
def getSignBytesList (env : AnteEnv) (chainID : String) (stdTx : StdTx)
    (stdSigs : List StdSignature) : List (List Nat) :=
  stdSigs.map (fun s =>
    env.stdSignBytes chainID s.accountNumber s.sequence stdTx.fee stdTx.msgs stdTx.memo)

/-- The per-signer loop of `NewAnteHandler` (lines 103–112): process each
signature in order, persisting each updated account, stopping at the first
failure; panics escape with the meter and store state at that point. -/
def signerLoop (verify : PubKey → List Nat → Sig → Bool) (simulate : Bool) :
    GasMeter → Store → List Account → List StdSignature → List (List Nat) →
    GasMeter × Store × Except PanicKind (Except Err (List Account))
  | m, store, accs, [], _ => (m, store, .ok (.ok accs))
  | m, store, accs, sig :: sigs, sbl =>
    match accs, sbl with
    | acc :: accs2, sb :: sbl2 =>
      match processSig verify m acc sig sb simulate with
      | (m2, .error p) => (m2, store, .error p)
      | (m2, .ok (.error e)) => (m2, store, .ok (.error e))
      | (m2, .ok (.ok acc2)) =>
        match signerLoop verify simulate m2 (setAccount store acc2) accs2 sigs sbl2 with
        | (m3, store3, .ok (.ok rest)) => (m3, store3, .ok (.ok (acc2 :: rest)))
        | (m3, store3, other) => (m3, store3, other)
    | _, _ => (m, store, .error (.other "runtime error: index out of range"))

/-- Lines 52–118 of `NewAnteHandler`: everything after the mempool-fee gate —
install the gas meter, basic validation, sign-bytes, account resolution,
account-number/sequence validation, fee deduction from the first signer,
the per-signer loop, and the final non-aborting result. -/
def anteCore (env : AnteEnv) (ctx : Ctx) (st : ChainState) (stdTx : StdTx)
    (simulate : Bool) : Ctx × ChainState × Except PanicKind (Result × Bool) :=
  let newCtx := setGasMeter simulate ctx stdTx.fee.gas
  match env.validateBasic stdTx with
  | some e => (newCtx, st, .ok (errResult e, true))
  | none =>
    let stdSigs := stdTx.signatures
    let signerAddrs := env.getSigners stdTx.msgs
    let signBytesList := getSignBytesList env newCtx.chainID stdTx stdSigs
    match getSignerAccs st.store signerAddrs with
    | .error e => (newCtx, st, .ok (errResult e, true))
    | .ok signerAccs =>
      match validateAccNumAndSequence ctx.blockHeight signerAccs stdSigs with
      | some e => (newCtx, st, .ok (errResult e, true))
      | none =>
        let loopStage : ChainState → List Account →
            Ctx × ChainState × Except PanicKind (Result × Bool) :=
          fun st2 accsAfterFee =>
            match signerLoop env.verify simulate newCtx.gasMeter st2.store
                accsAfterFee stdSigs signBytesList with
            | (m3, store3, .error p) =>
              ({ newCtx with gasMeter := m3 }, { st2 with store := store3 }, .error p)
            | (m3, store3, .ok (.error e)) =>
              ({ newCtx with gasMeter := m3 }, { st2 with store := store3 },
                .ok (errResult e, true))
            | (m3, store3, .ok (.ok finalAccs)) =>
              ({ newCtx with gasMeter := m3, signers := finalAccs },
                { st2 with store := store3 },
                .ok ({ err := none, gasWanted := stdTx.fee.gas, gasUsed := 0 }, false))
        if !(Coins.isZero stdTx.fee.amount) then
          match signerAccs with
          | [] => (newCtx, st, .error (.other "runtime error: index out of range"))
          | acc0 :: restAccs =>
            match deductFees acc0 stdTx.fee with
            | .error e => (newCtx, st, .ok (errResult e, true))
            | .ok acc0d =>
              loopStage { st with collectedFees := Coins.add st.collectedFees stdTx.fee.amount }
                (acc0d :: restAccs)
        else loopStage st signerAccs

/-- The body of the ante handler closure before the deferred recover: the
type gate, the CheckTx-only mempool fee gate, then `anteCore`.  Always
returns the context and chain state as of completion or panic. -/
def anteBody (env : AnteEnv) (ctx : Ctx) (st : ChainState) (tx : Tx)
    (simulate : Bool) : Ctx × ChainState × Except PanicKind (Result × Bool) :=
  match tx with
  | .nonStd =>
    (setGasMeter simulate ctx 0, st, .ok (errResult (.internal "tx must be StdTx"), true))
  | .std stdTx =>
    if ctx.isCheckTx && !simulate then
      match ensureSufficientMempoolFees ctx stdTx with
      | some e => (ctx, st, .ok (errResult e, true))
      | none => anteCore env ctx st stdTx simulate
    else anteCore env ctx st stdTx simulate

/-- Source `NewAnteHandler`'s returned closure, including the deferred
recover: an out-of-gas panic becomes a structured out-of-gas result carrying
the declared gas limit and the meter's consumption, with `abort = true`; any
other panic is re-raised (the `.error` of the returned `Except`). -/
def anteHandler (env : AnteEnv) (ctx : Ctx) (st : ChainState) (tx : Tx)
    (simulate : Bool) : Except PanicKind (Ctx × ChainState × Result × Bool) :=
  match anteBody env ctx st tx simulate with
  | (newCtx, st2, .ok (res, ab)) => .ok (newCtx, st2, res, ab)
  | (newCtx, st2, .error (.outOfGas d)) =>
    .ok (newCtx, st2,
      { err := some (.outOfGas ("out of gas in location: " ++ d)),
        gasWanted := tx.gas, gasUsed := newCtx.gasMeter.consumed }, true)
  | (_, _, .error (.other msg)) => .error (.other msg)

/-! ## Claim C1: account-number and sequence validation -/

/-- Spec-side predicate: signer `sig` against account `acc` satisfies the
account-number and sequence rules at block height `h`. -/
def PairOK (h : Int) (acc : Account) (sig : StdSignature) : Prop :=
  (h = 0 → sig.accountNumber = 0) ∧
  (h ≠ 0 → sig.accountNumber = acc.accountNumber) ∧
  sig.sequence = acc.sequence

instance (h : Int) (acc : Account) (sig : StdSignature) : Decidable (PairOK h acc sig) := by
  unfold PairOK; infer_instance

/-- The claimed ("got") value named by the first failing check. -/
def gotOf (h : Int) (acc : Account) (sig : StdSignature) : Nat :=
  if h == 0 && sig.accountNumber != 0 then sig.accountNumber
  else if h != 0 && acc.accountNumber != sig.accountNumber then sig.accountNumber
  else sig.sequence

/-- The stored ("expected") value named by the first failing check. -/
def expectedOf (h : Int) (acc : Account) (sig : StdSignature) : Nat :=
  if h == 0 && sig.accountNumber != 0 then 0
  else if h != 0 && acc.accountNumber != sig.accountNumber then acc.accountNumber
  else acc.sequence

/-- The error-message prefix of the first failing check. -/
def msgPrefixOf (h : Int) (acc : Account) (sig : StdSignature) : String :=
  if h == 0 && sig.accountNumber != 0 then
    "Invalid account number for BlockHeight == 0. Got "
  else if h != 0 && acc.accountNumber != sig.accountNumber then
    "Invalid account number. Got "
  else "Invalid sequence. Got "

lemma validate_violation_head (h : Int) (acc : Account) (sig : StdSignature)
    (accs : List Account) (sigs : List StdSignature) (hbad : ¬ PairOK h acc sig) :
    validateAccNumAndSequence h (acc :: accs) (sig :: sigs) =
      some (.invalidSequence
        (msgPrefixOf h acc sig ++ toString (gotOf h acc sig) ++
          ", expected " ++ toString (expectedOf h acc sig))) := by
  by_cases hc1 : h = 0 ∧ sig.accountNumber ≠ 0
  · obtain ⟨h0, hn⟩ := hc1
    subst h0
    rw [validateAccNumAndSequence]
    unfold msgPrefixOf gotOf expectedOf
    simp [hn]
    have h00 : toString (0 : Nat) = "0" := rfl
    rw [h00]
    apply String.ext
    simp [String.data_append]
  · by_cases hc2 : h ≠ 0 ∧ acc.accountNumber ≠ sig.accountNumber
    · obtain ⟨h0, hn⟩ := hc2
      rw [validateAccNumAndSequence]
      unfold msgPrefixOf gotOf expectedOf
      simp [h0, hn]
    · have hone : h = 0 → sig.accountNumber = 0 := by
        intro h0
        by_contra hn
        exact hc1 ⟨h0, hn⟩
      have htwo : h ≠ 0 → acc.accountNumber = sig.accountNumber := by
        intro h0
        by_contra hn
        exact hc2 ⟨h0, hn⟩
      have hseq : sig.sequence ≠ acc.sequence := by
        intro hs
        exact hbad ⟨hone, fun hh => (htwo hh).symm, hs⟩
      rw [validateAccNumAndSequence]
      unfold msgPrefixOf gotOf expectedOf
      by_cases h0 : h = 0
      · subst h0
        simp [hone rfl, Ne.symm hseq]
      · simp [h0, htwo h0, Ne.symm hseq]

lemma validate_ok_head (h : Int) (a : Account) (s : StdSignature)
    (as : List Account) (ss : List StdSignature) (hok : PairOK h a s) :
    validateAccNumAndSequence h (a :: as) (s :: ss) =
      validateAccNumAndSequence h as ss := by
  obtain ⟨hA, hB, hC⟩ := hok
  rw [validateAccNumAndSequence]
  by_cases h0 : h = 0
  · subst h0
    simp [hA rfl, hC]
  · simp [h0, hB h0, hC]

lemma validate_ok_iff (h : Int) (accs : List Account) :
    ∀ sigs : List StdSignature, accs.length = sigs.length →
    (validateAccNumAndSequence h accs sigs = none ↔
      ∀ p ∈ accs.zip sigs, PairOK h p.1 p.2) := by
  induction accs with
  | nil =>
    intro sigs _
    simp [validateAccNumAndSequence]
  | cons a as ih =>
    intro sigs hlen
    cases sigs with
    | nil => simp at hlen
    | cons s ss =>
      simp only [List.length_cons] at hlen
      have hlen2 : as.length = ss.length := by omega
      constructor
      · intro hv
        by_cases hok : PairOK h a s
        · rw [validate_ok_head h a s as ss hok] at hv
          intro p hp
          rcases (by simpa using hp : p = (a, s) ∨ p ∈ as.zip ss) with hp | hp
          · subst hp; exact hok
          · exact ((ih ss hlen2).mp hv) p hp
        · rw [validate_violation_head h a s as ss hok] at hv
          exact absurd hv (by simp)
      · intro hall
        have hok : PairOK h a s := hall (a, s) (by simp)
        rw [validate_ok_head h a s as ss hok]
        exact (ih ss hlen2).mpr (fun p hp => hall p (by simp [hp]))

lemma validate_first_violation (h : Int) (accs1 : List Account) :
    ∀ (sigs1 : List StdSignature) (acc : Account) (sig : StdSignature)
      (accs2 : List Account) (sigs2 : List StdSignature),
      accs1.length = sigs1.length →
      (∀ p ∈ accs1.zip sigs1, PairOK h p.1 p.2) →
      ¬ PairOK h acc sig →
      validateAccNumAndSequence h (accs1 ++ acc :: accs2) (sigs1 ++ sig :: sigs2) =
        some (.invalidSequence (msgPrefixOf h acc sig ++ toString (gotOf h acc sig) ++
          ", expected " ++ toString (expectedOf h acc sig))) := by
  induction accs1 with
  | nil =>
    intro sigs1 acc sig accs2 sigs2 hlen _ hbad
    have hs1 : sigs1 = [] := List.length_eq_zero.mp (by simpa using hlen.symm)
    subst hs1
    simpa using validate_violation_head h acc sig accs2 sigs2 hbad
  | cons a as ih =>
    intro sigs1 acc sig accs2 sigs2 hlen hall hbad
    cases sigs1 with
    | nil => simp at hlen
    | cons s ss =>
      simp only [List.length_cons] at hlen
      rw [List.cons_append, List.cons_append,
        validate_ok_head h a s _ _ (hall (a, s) (by simp))]
      exact ih ss acc sig accs2 sigs2 (by omega)
        (fun p hp => hall p (by simp [hp])) hbad

/-- C1: processed in signer order, each signer's claimed account number must
equal 0 at genesis height and the stored account number otherwise, and the
claimed sequence must equal the stored sequence exactly; a violation-free
input returns OK, and the first violation yields an invalid-sequence error
whose message carries the claimed (got) and stored (expected) values. -/
theorem c1_validateAccNumAndSequence (h : Int) (accs : List Account)
    (sigs : List StdSignature) (hlen : accs.length = sigs.length) :
    (validateAccNumAndSequence h accs sigs = none ↔
      ∀ p ∈ accs.zip sigs, PairOK h p.1 p.2) ∧
    (∀ (accs1 : List Account) (acc : Account) (accs2 : List Account)
       (sigs1 : List StdSignature) (sig : StdSignature) (sigs2 : List StdSignature),
      accs = accs1 ++ acc :: accs2 → sigs = sigs1 ++ sig :: sigs2 →
      accs1.length = sigs1.length →
      (∀ p ∈ accs1.zip sigs1, PairOK h p.1 p.2) →
      ¬ PairOK h acc sig →
      validateAccNumAndSequence h accs sigs =
        some (.invalidSequence (msgPrefixOf h acc sig ++ toString (gotOf h acc sig) ++
          ", expected " ++ toString (expectedOf h acc sig)))) := by
  refine ⟨validate_ok_iff h accs sigs hlen, ?_⟩
  intro accs1 acc accs2 sigs1 sig sigs2 he1 he2 hl hall hbad
  subst he1; subst he2
  exact validate_first_violation h accs1 sigs1 acc sig accs2 sigs2 hl hall hbad

/-- Witness for C1 at a concrete input: height 5, stored sequence 3, claimed
sequence 9 — the validator reports the got/expected pair. -/
theorem c1_witness :
    validateAccNumAndSequence 5
      [{ address := 1, pubKey := none, coins := [], accountNumber := 7, sequence := 3 }]
      [{ pubKey := none, signature := .raw [], accountNumber := 7, sequence := 9 }] =
      some (.invalidSequence "Invalid sequence. Got 9, expected 3") := by
  have := (c1_validateAccNumAndSequence 5
      [{ address := 1, pubKey := none, coins := [], accountNumber := 7, sequence := 3 }]
      [{ pubKey := none, signature := .raw [], accountNumber := 7, sequence := 9 }]
      rfl).2
      [] { address := 1, pubKey := none, coins := [], accountNumber := 7, sequence := 3 }
      [] [] { pubKey := none, signature := .raw [], accountNumber := 7, sequence := 9 }
      [] rfl rfl rfl (by simp) (by simp [PairOK])
  simpa [msgPrefixOf, gotOf, expectedOf] using this

/-! ## Claim C6: gas meter construction -/

lemma gasPowLe_step_down (g k : Nat) (hk : gasPowLe g (k + 1) = true) :
    gasPowLe g k = true := by
  simp only [gasPowLe, decide_eq_true_eq] at hk ⊢
  have h1 : 100 * 102 ^ k ≤ 102 * 102 ^ k :=
    Nat.mul_le_mul_right _ (by norm_num)
  have h2 : 102 * 102 ^ k ≤ 100 * (g * 100 ^ k) := by
    calc 102 * 102 ^ k = 102 ^ (k + 1) := by ring
    _ ≤ g * 100 ^ (k + 1) := hk
    _ = 100 * (g * 100 ^ k) := by ring
  exact Nat.le_of_mul_le_mul_left (le_trans h1 h2) (by norm_num)

lemma gasLogAux_spec (g : Nat) (hg : 1 ≤ g) :
    ∀ fuel, gasPowLe g fuel = false →
      gasPowLe g (gasLogAux g fuel) = true ∧
      gasPowLe g (gasLogAux g fuel + 1) = false := by
  intro fuel
  induction fuel with
  | zero =>
    intro h0
    have : gasPowLe g 0 = true := by
      simp [gasPowLe]
      omega
    rw [this] at h0
    exact absurd h0 (by simp)
  | succ k ih =>
    intro hk1
    rw [gasLogAux, hk1]
    simp only [Bool.false_eq_true, if_false]
    by_cases hk : gasPowLe g k = true
    · cases k with
      | zero =>
        refine ⟨by simpa [gasLogAux] using hk, ?_⟩
        simpa [gasLogAux] using hk1
      | succ k2 =>
        rw [gasLogAux, hk]
        simp only [if_true]
        exact ⟨hk, hk1⟩
    · exact ih (by simpa using hk)

lemma gasPowLe_fuel_false (g : Nat) (hg : gasShift < g) :
    gasPowLe g (50 * (Nat.log2 g + 1)) = false := by
  simp only [gasPowLe, decide_eq_false_iff_not, not_le]
  have hgz : g ≠ 0 := by unfold gasShift at hg; omega
  have h2 : g < 2 ^ (Nat.log2 g + 1) := (Nat.log2_lt hgz).mp (Nat.lt_succ_self _)
  have hbase : 2 * 100 ^ 50 ≤ 102 ^ 50 := by norm_num
  have hpw : (2 * 100 ^ 50) ^ (Nat.log2 g + 1) ≤ (102 ^ 50) ^ (Nat.log2 g + 1) :=
    Nat.pow_le_pow_left hbase _
  calc g * 100 ^ (50 * (Nat.log2 g + 1))
      < 2 ^ (Nat.log2 g + 1) * 100 ^ (50 * (Nat.log2 g + 1)) := by
        have hp : 0 < 100 ^ (50 * (Nat.log2 g + 1)) := Nat.pos_pow_of_pos _ (by norm_num)
        exact Nat.mul_lt_mul_of_lt_of_le h2 (le_refl _) hp
    _ = (2 * 100 ^ 50) ^ (Nat.log2 g + 1) := by
        rw [Nat.mul_pow, ← Nat.pow_mul]
    _ ≤ (102 ^ 50) ^ (Nat.log2 g + 1) := hpw
    _ = 102 ^ (50 * (Nat.log2 g + 1)) := by
        rw [← Nat.pow_mul, Nat.mul_comm 50 _]

lemma gasLog_spec (g : Nat) (hg : gasShift < g) :
    gasPowLe g (gasLog g) = true ∧ gasPowLe g (gasLog g + 1) = false :=
  gasLogAux_spec g (by unfold gasShift at hg; omega) _ (gasPowLe_fuel_false g hg)

/-- C6: the installed meter is infinite exactly in simulate mode or at
genesis height (and an infinite meter never raises out-of-gas); otherwise it
is bounded, with an effective limit that is the declared limit itself up to
the shift 285 and the `1.02`-logarithm floor of the declared limit beyond
it. -/
theorem c6_setGasMeter (simulate : Bool) (ctx : Ctx) (lim : Nat) :
    ((simulate = true ∨ ctx.blockHeight = 0) →
      (setGasMeter simulate ctx lim).gasMeter = newInfiniteGasMeter ∧
      ∀ (m : GasMeter) (amt : Nat) (d : String), m.infinite = true →
        (m.consumeGas amt d).2 = none) ∧
    (simulate = false → ctx.blockHeight ≠ 0 →
      (setGasMeter simulate ctx lim).gasMeter =
        { infinite := false, limit := effectiveGasLimit lim, consumed := 0 } ∧
      (lim ≤ gasShift → effectiveGasLimit lim = lim) ∧
      (gasShift < lim →
        effectiveGasLimit lim = gasLog lim ∧
        102 ^ effectiveGasLimit lim ≤ lim * 100 ^ effectiveGasLimit lim ∧
        lim * 100 ^ (effectiveGasLimit lim + 1) < 102 ^ (effectiveGasLimit lim + 1))) := by
  constructor
  · intro hinf
    constructor
    · rcases hinf with h | h <;> simp [setGasMeter, h]
    · intro m amt d hm
      simp [GasMeter.consumeGas, hm]
  · intro hsim hh
    subst hsim
    refine ⟨by simp [setGasMeter, hh, newGasMeterWithBase], ?_, ?_⟩
    · intro hle
      simp [effectiveGasLimit, hle]
    · intro hgt
      have heq : effectiveGasLimit lim = gasLog lim := by
        simp [effectiveGasLimit, Nat.not_le_of_lt hgt]
      obtain ⟨h1, h2⟩ := gasLog_spec lim hgt
      refine ⟨heq, ?_, ?_⟩
      · rw [heq]
        simpa [gasPowLe, decide_eq_true_eq] using h1
      · rw [heq]
        have := h2
        simp only [gasPowLe, decide_eq_false_iff_not, not_le] at this
        exact this

/-- Witness for C6 at a concrete input: non-simulate, height 1, declared
limit 300 (beyond the shift). -/
theorem c6_witness :
    (setGasMeter false
        { chainID := "", blockHeight := 1, isCheckTx := false, minimumFees := [],
          gasMeter := newInfiniteGasMeter, signers := [] } 300).gasMeter =
      { infinite := false, limit := effectiveGasLimit 300, consumed := 0 } ∧
    (gasShift < 300 →
      effectiveGasLimit 300 = gasLog 300 ∧
      102 ^ effectiveGasLimit 300 ≤ 300 * 100 ^ effectiveGasLimit 300 ∧
      300 * 100 ^ (effectiveGasLimit 300 + 1) < 102 ^ (effectiveGasLimit 300 + 1)) := by
  have := (c6_setGasMeter false
      { chainID := "", blockHeight := 1, isCheckTx := false, minimumFees := [],
        gasMeter := newInfiniteGasMeter, signers := [] } 300).2 rfl (by decide)
  exact ⟨this.1, fun _ => this.2.2 (by decide)⟩

/-! ## Claim C7: public key resolution outside simulate mode -/

/-- C7: outside simulate mode the stored key wins; otherwise the key carried
in the signature entry is adopted only if its derived address equals the
account's, a mismatch or a missing key being an invalid-public-key
rejection. -/
theorem c7_processPubKey (acc : Account) (sig : StdSignature) :
    (∀ pk, acc.pubKey = some pk → processPubKey acc sig false = .ok pk) ∧
    (acc.pubKey = none → sig.pubKey = none →
      processPubKey acc sig false = .error (.invalidPubKey "PubKey not found")) ∧
    (∀ pk, acc.pubKey = none → sig.pubKey = some pk → pk.address ≠ acc.address →
      processPubKey acc sig false = .error (.invalidPubKey
        ("PubKey does not match Signer address " ++ toString acc.address))) ∧
    (∀ pk, acc.pubKey = none → sig.pubKey = some pk → pk.address = acc.address →
      processPubKey acc sig false = .ok pk) := by
  refine ⟨?_, ?_, ?_, ?_⟩
  · intro pk hpk
    simp [processPubKey, hpk]
  · intro h1 h2
    simp [processPubKey, h1, h2]
  · intro pk h1 h2 h3
    simp [processPubKey, h1, h2, h3]
  · intro pk h1 h2 h3
    simp [processPubKey, h1, h2, h3]

/-- Witness for C7 at a concrete input: no stored key, signature carries a
key deriving to address 9 while the account's address is 1. -/
theorem c7_witness :
    processPubKey
      { address := 1, pubKey := none, coins := [], accountNumber := 0, sequence := 0 }
      { pubKey := some (.ed25519 9), signature := .raw [], accountNumber := 0, sequence := 0 }
      false = .error (.invalidPubKey "PubKey does not match Signer address 1") := by
  have := (c7_processPubKey
      { address := 1, pubKey := none, coins := [], accountNumber := 0, sequence := 0 }
      { pubKey := some (.ed25519 9), signature := .raw [], accountNumber := 0,
        sequence := 0 }).2.2.1 (.ed25519 9) rfl rfl (by decide)
  simpa using this

/-! ## Claim C8: simulate mode -/

/-- Whether a key is one of the two single-key schemes. -/
def PubKey.isBase : PubKey → Bool
  | .ed25519 _ => true
  | .secp256k1 _ => true
  | _ => false

/-- The fixed verification cost of a single-key scheme. -/
def baseKeyCost : PubKey → Nat
  | .ed25519 _ => ed25519VerifyCost
  | .secp256k1 _ => secp256k1VerifyCost
  | _ => 0

/-- C8 counterexample: in simulate mode, with a stored threshold-multisig
key and signature bytes that do not amino-decode, `processSig` does not
succeed — it escapes with the Go `MustUnmarshalBinaryBare` panic — refuting
"processSig succeeds for any resolved key regardless of the signature
bytes". -/
theorem c8_counterexample :
    processSig (fun _ _ _ => true) newInfiniteGasMeter
      { address := 1, pubKey := some (.multisigThreshold 1 [.ed25519 2]), coins := [],
        accountNumber := 0, sequence := 0 }
      { pubKey := none, signature := .raw [], accountNumber := 0, sequence := 0 }
      [] true =
      (newInfiniteGasMeter, .error (.other "amino: multisignature decode failed")) := by
  simp [processSig, processPubKey, consumeSignatureVerificationGas]

/-- C8 (amended): in simulate mode the outcome never depends on the
byte-verification function; a missing stored key is replaced by the fixed
secp256k1 placeholder and charged the worst-case single-key cost
(100 > 59); and for any stored single-key-scheme key `processSig` succeeds
regardless of the signature bytes, charging that key's fixed cost.  (A
stored threshold-multisig key still requires the signature bytes to
amino-decode for gas metering.) -/
theorem c8_processSig_simulate (v1 v2 : PubKey → List Nat → Sig → Bool)
    (m : GasMeter) (acc : Account) (sig : StdSignature) (sb : List Nat)
    (hm : m.infinite = true) :
    (processSig v1 m acc sig sb true = processSig v2 m acc sig sb true) ∧
    (acc.pubKey = none →
      processSig v1 m acc sig sb true =
        ({ m with consumed := m.consumed + secp256k1VerifyCost },
          .ok (.ok { acc with
            pubKey := some dummySecp256k1Pubkey,
            sequence := acc.sequence + 1 }))) ∧
    (∀ pk, acc.pubKey = some pk → pk.isBase = true →
      processSig v1 m acc sig sb true =
        ({ m with consumed := m.consumed + baseKeyCost pk },
          .ok (.ok { acc with pubKey := some pk, sequence := acc.sequence + 1 }))) ∧
    ed25519VerifyCost < secp256k1VerifyCost := by
  refine ⟨?_, ?_, ?_, by decide⟩
  · simp [processSig]
  · intro hnone
    simp [processSig, processPubKey, hnone, dummySecp256k1Pubkey,
      consumeSignatureVerificationGas, GasMeter.consumeGas, hm]
  · intro pk hpk hbase
    cases pk with
    | ed25519 a =>
      simp [processSig, processPubKey, hpk,
        consumeSignatureVerificationGas, GasMeter.consumeGas, hm, baseKeyCost]
    | secp256k1 a =>
      simp [processSig, processPubKey, hpk,
        consumeSignatureVerificationGas, GasMeter.consumeGas, hm, baseKeyCost]
    | multisigThreshold a keys => simp [PubKey.isBase] at hbase
    | unrecognized a n => simp [PubKey.isBase] at hbase

/-- Witness for C8 at a concrete input: simulate mode, no stored key — the
placeholder key is installed and 100 gas units are charged. -/
theorem c8_witness :
    processSig (fun _ _ _ => false) newInfiniteGasMeter
      { address := 1, pubKey := none, coins := [], accountNumber := 0, sequence := 4 }
      { pubKey := none, signature := .raw [], accountNumber := 0, sequence := 4 }
      [] true =
      ({ newInfiniteGasMeter with consumed := secp256k1VerifyCost },
        .ok (.ok { address := 1, pubKey := some dummySecp256k1Pubkey, coins := [],
                   accountNumber := 0, sequence := 5 })) := by
  have := (c8_processSig_simulate (fun _ _ _ => false) (fun _ _ _ => true)
      newInfiniteGasMeter
      { address := 1, pubKey := none, coins := [], accountNumber := 0, sequence := 4 }
      { pubKey := none, signature := .raw [], accountNumber := 0, sequence := 4 }
      [] rfl).2.1 rfl
  simpa [newInfiniteGasMeter] using this

/-! ## Claims C3 and C10: multisignature verification gas

Spec-side mirror functions: the gas the source charges for a
signature/key pair, the structural alignment making the source's walk
panic-free, and the inner `Result` the source discards. -/

mutual

/-- Spec-side: the verification gas charged for one signature/key pair. -/
def expectedCost : Sig → PubKey → Nat
  | _, .ed25519 _ => ed25519VerifyCost
  | _, .secp256k1 _ => secp256k1VerifyCost
  | .multi bits sigs, .multisigThreshold _ keys => expectedMultiCost bits sigs keys
  | .raw _, .multisigThreshold _ _ => 0
  | _, .unrecognized _ _ => 0
termination_by sig pk => sizeOf sig + sizeOf pk
decreasing_by
  all_goals simp_wf
  all_goals have h1 := length_lt_sizeOf_listBool bits
  all_goals omega

/-- Spec-side: the sum, in bitmap order, of the costs of exactly the member
keys whose inclusion bit is set, each against its partial signature. -/
def expectedMultiCost : List Bool → List Sig → List PubKey → Nat
  | [], _, _ => 0
  | true :: bits, s :: sigs, k :: keys => expectedCost s k + expectedMultiCost bits sigs keys
  | true :: _, _, _ => 0
  | false :: bits, sigs, keys => expectedMultiCost bits sigs keys.tail
termination_by bits sigs keys => sizeOf sigs + sizeOf keys + bits.length
decreasing_by
  all_goals simp_wf
  all_goals have h1 := tail_sizeOf_le_listPubKey keys
  all_goals omega

end

mutual

/-- Spec-side: the signature/key pair is structurally aligned, so the
source's gas walk raises no panic: multisig bytes decode, every set bit has
a member key and a partial signature, recursively. -/
def sigAligned : Sig → PubKey → Bool
  | _, .ed25519 _ => true
  | _, .secp256k1 _ => true
  | .multi bits sigs, .multisigThreshold _ keys => multiAligned bits sigs keys
  | .raw _, .multisigThreshold _ _ => false
  | _, .unrecognized _ _ => true
termination_by sig pk => sizeOf sig + sizeOf pk
decreasing_by
  all_goals simp_wf
  all_goals have h1 := length_lt_sizeOf_listBool bits
  all_goals omega

/-- Spec-side: alignment of a bitmap walk. -/
def multiAligned : List Bool → List Sig → List PubKey → Bool
  | [], _, _ => true
  | true :: bits, s :: sigs, k :: keys => sigAligned s k && multiAligned bits sigs keys
  | true :: _, _, _ => false
  | false :: bits, sigs, keys => multiAligned bits sigs keys.tail
termination_by bits sigs keys => sizeOf sigs + sizeOf keys + bits.length
decreasing_by
  all_goals simp_wf
  all_goals have h1 := tail_sizeOf_le_listPubKey keys
  all_goals omega

end

/-- Spec-side: the `sdk.Result` the source's cost switch produces for a key
(an error only for an unrecognized key type). -/
def resultOf : PubKey → Option Err
  | .unrecognized _ typeName =>
    some (.invalidPubKey ("unrecognized public key type: " ++ typeName))
  | _ => none

lemma consume_ok_all (n : Nat) :
    (∀ (sig : Sig) (pk : PubKey), sizeOf sig + sizeOf pk ≤ n →
      ∀ m : GasMeter, m.infinite = true → sigAligned sig pk = true →
      consumeSignatureVerificationGas m sig pk =
        ({ m with consumed := m.consumed + expectedCost sig pk }, .ok (resultOf pk))) ∧
    (∀ (bits : List Bool) (sigs : List Sig) (keys : List PubKey),
      sizeOf sigs + sizeOf keys + bits.length ≤ n →
      ∀ m : GasMeter, m.infinite = true → multiAligned bits sigs keys = true →
      consumeMultisignatureVerificationGas m bits sigs keys =
        ({ m with consumed := m.consumed + expectedMultiCost bits sigs keys }, none)) := by
  induction n using Nat.strong_induction_on with
  | _ n ih =>
  constructor
  · intro sig pk hsz m hm ha
    cases pk with
    | ed25519 a =>
      simp [consumeSignatureVerificationGas, GasMeter.consumeGas, hm,
        expectedCost, resultOf]
    | secp256k1 a =>
      simp [consumeSignatureVerificationGas, GasMeter.consumeGas, hm,
        expectedCost, resultOf]
    | unrecognized a tn =>
      simp [consumeSignatureVerificationGas, expectedCost, resultOf]
    | multisigThreshold a keys =>
      cases sig with
      | raw bs => simp [sigAligned] at ha
      | multi bits msigs =>
        have hbits := length_lt_sizeOf_listBool bits
        have hsz2 : sizeOf msigs + sizeOf keys + bits.length < n := by
          simp only [Sig.multi.sizeOf_spec, PubKey.multisigThreshold.sizeOf_spec] at hsz
          omega
        have ha2 : multiAligned bits msigs keys = true := by
          simpa [sigAligned] using ha
        have hrec := (ih _ hsz2).2 bits msigs keys (le_refl _) m hm ha2
        simp [consumeSignatureVerificationGas, hrec, expectedCost, resultOf]
  · intro bits sigs keys hsz m hm ha
    cases bits with
    | nil =>
      simp [consumeMultisignatureVerificationGas, expectedMultiCost]
    | cons b bits2 =>
      cases b with
      | true =>
        cases sigs with
        | nil =>
          exfalso
          cases keys <;> simp [multiAligned] at ha
        | cons s sigs2 =>
          cases keys with
          | nil => simp [multiAligned] at ha
          | cons k keys2 =>
            have ha2 : sigAligned s k = true ∧ multiAligned bits2 sigs2 keys2 = true := by
              simpa [multiAligned] using ha
            have hsig : sizeOf s + sizeOf k < n := by
              simp only [List.cons.sizeOf_spec, List.length_cons] at hsz
              omega
            have hone := (ih _ hsig).1 s k (le_refl _) m hm ha2.1
            have hrest : sizeOf sigs2 + sizeOf keys2 + bits2.length < n := by
              simp only [List.cons.sizeOf_spec, List.length_cons] at hsz
              omega
            have htwo := (ih _ hrest).2 bits2 sigs2 keys2 (le_refl _)
              { m with consumed := m.consumed + expectedCost s k } hm ha2.2
            simp [consumeMultisignatureVerificationGas, hone, htwo,
              expectedMultiCost, Nat.add_assoc]
      | false =>
        have ha2 : multiAligned bits2 sigs keys.tail = true := by
          simpa [multiAligned] using ha
        have htail := tail_sizeOf_le_listPubKey keys
        have hrest : sizeOf sigs + sizeOf keys.tail + bits2.length < n := by
          simp only [List.length_cons] at hsz
          omega
        have hrec := (ih _ hrest).2 bits2 sigs keys.tail (le_refl _) m hm ha2
        simp [consumeMultisignatureVerificationGas, hrec, expectedMultiCost]

lemma consume_base (m : GasMeter) (hm : m.infinite = true) (s : Sig) (k : PubKey)
    (hk : k.isBase = true) :
    consumeSignatureVerificationGas m s k =
      ({ m with consumed := m.consumed + baseKeyCost k }, .ok none) := by
  cases k with
  | ed25519 a =>
    simp [consumeSignatureVerificationGas, GasMeter.consumeGas, hm, baseKeyCost]
  | secp256k1 a =>
    simp [consumeSignatureVerificationGas, GasMeter.consumeGas, hm, baseKeyCost]
  | multisigThreshold a keys => simp [PubKey.isBase] at hk
  | unrecognized a tn => simp [PubKey.isBase] at hk

lemma multiAligned_of_base (bits : List Bool) :
    ∀ (sigs : List Sig) (keys : List PubKey),
      bits.length = keys.length → (∀ k ∈ keys, k.isBase = true) →
      bits.count true ≤ sigs.length → multiAligned bits sigs keys = true := by
  induction bits with
  | nil =>
    intro sigs keys _ _ _
    simp [multiAligned]
  | cons b bits2 ih =>
    intro sigs keys hlen hbase hcount
    cases keys with
    | nil => simp at hlen
    | cons k keys2 =>
      simp only [List.length_cons] at hlen
      cases b with
      | false =>
        have := ih sigs keys2 (by omega) (fun k2 hk2 => hbase k2 (by simp [hk2]))
          (by simpa [List.count_cons] using hcount)
        simpa [multiAligned] using this
      | true =>
        cases sigs with
        | nil => simp [List.count_cons] at hcount
        | cons s sigs2 =>
          have hk : sigAligned s k = true := by
            have hb := hbase k (by simp)
            cases k with
            | ed25519 a => cases s <;> simp [sigAligned]
            | secp256k1 a => cases s <;> simp [sigAligned]
            | multisigThreshold a ks => simp [PubKey.isBase] at hb
            | unrecognized a tn => simp [PubKey.isBase] at hb
          have hrest := ih sigs2 keys2 (by omega)
            (fun k2 hk2 => hbase k2 (by simp [hk2]))
            (by simp [List.count_cons] at hcount ⊢; omega)
          simp [multiAligned, hk, hrest]

lemma multisig_too_few (bits : List Bool) :
    ∀ (sigs : List Sig) (keys : List PubKey) (m : GasMeter),
      m.infinite = true → bits.length = keys.length →
      (∀ k ∈ keys, k.isBase = true) → sigs.length < bits.count true →
      ∃ m2, consumeMultisignatureVerificationGas m bits sigs keys =
        (m2, some (.other "runtime error: index out of range")) := by
  induction bits with
  | nil =>
    intro sigs keys m _ _ _ hcount
    simp at hcount
  | cons b bits2 ih =>
    intro sigs keys m hm hlen hbase hcount
    cases keys with
    | nil => simp at hlen
    | cons k keys2 =>
      simp only [List.length_cons] at hlen
      cases b with
      | false =>
        rcases ih sigs keys2 m hm (by omega) (fun k2 hk2 => hbase k2 (by simp [hk2]))
            (by simpa [List.count_cons] using hcount) with ⟨m2, hm2⟩
        exact ⟨m2, by simp [consumeMultisignatureVerificationGas, hm2]⟩
      | true =>
        cases sigs with
        | nil =>
          exact ⟨m, by simp [consumeMultisignatureVerificationGas]⟩
        | cons s sigs2 =>
          have hcons := consume_base m hm s k (hbase k (by simp))
          rcases ih sigs2 keys2 { m with consumed := m.consumed + baseKeyCost k }
              hm (by omega) (fun k2 hk2 => hbase k2 (by simp [hk2]))
              (by simp [List.count_cons] at hcount ⊢; omega) with ⟨m2, hm2⟩
          exact ⟨m2, by simp [consumeMultisignatureVerificationGas, hcons, hm2]⟩

/-- C3 counterexample: bitmap `101` with a single partial signature is not
rejected as a structural mismatch — after charging gas for the first
included member the source hits a Go slice-index panic (which, per the
recover contract, escapes the ante handler rather than producing a
rejection result). -/
theorem c3_counterexample :
    consumeSignatureVerificationGas newInfiniteGasMeter
      (.multi [true, false, true] [.raw []])
      (.multisigThreshold 0 [.ed25519 1, .ed25519 2, .ed25519 3]) =
      ({ newInfiniteGasMeter with consumed := ed25519VerifyCost },
        .error (.other "runtime error: index out of range")) := by
  simp [consumeSignatureVerificationGas, consumeMultisignatureVerificationGas,
    GasMeter.consumeGas, newInfiniteGasMeter]

/-- C3 (amended): with at least as many partial signatures as set bits
(and bitmap length matching the member list, single-key members), the gas
charged is the sum of the per-member costs of exactly the included members
in bitmap order; with fewer partial signatures than set bits the walk does
not reject but raises a slice-index panic after consuming the earlier
members' gas (surplus partial signatures are not rejected here). -/
theorem c3_multisig_gas (m : GasMeter) (bits : List Bool) (sigs : List Sig)
    (keys : List PubKey) (hm : m.infinite = true) (hlen : bits.length = keys.length)
    (hbase : ∀ k ∈ keys, k.isBase = true) :
    (bits.count true ≤ sigs.length →
      consumeMultisignatureVerificationGas m bits sigs keys =
        ({ m with consumed := m.consumed + expectedMultiCost bits sigs keys }, none)) ∧
    (sigs.length < bits.count true →
      ∃ m2, consumeMultisignatureVerificationGas m bits sigs keys =
        (m2, some (.other "runtime error: index out of range"))) := by
  constructor
  · intro hcount
    exact (consume_ok_all (sizeOf sigs + sizeOf keys + bits.length)).2 bits sigs keys
      (le_refl _) m hm (multiAligned_of_base bits sigs keys hlen hbase hcount)
  · intro hcount
    exact multisig_too_few bits sigs keys m hm hlen hbase hcount

/-- Witness for C3 (amended) at a concrete input: bitmap `101`, two partial
signatures, members ed25519/ed25519/secp256k1 — gas is 59 + 100. -/
theorem c3_witness :
    consumeMultisignatureVerificationGas newInfiniteGasMeter [true, false, true]
      [.raw [], .raw []] [.ed25519 1, .ed25519 2, .secp256k1 3] =
      ({ newInfiniteGasMeter with consumed := 159 }, none) := by
  have := (c3_multisig_gas newInfiniteGasMeter [true, false, true]
      [.raw [], .raw []] [.ed25519 1, .ed25519 2, .secp256k1 3]
      rfl (by decide) (by decide)).1 (by decide)
  simpa [expectedMultiCost, expectedCost, newInfiniteGasMeter] using this

/-- C10: the multisig cost walk is recursive — an included member that is
itself a threshold multisig contributes the recursive sum over its own
included members — and the inner per-member result is discarded, so an
unrecognized member key type (whose own cost switch returns an
invalid-public-key result) does not make the outer computation return an
error. -/
theorem c10_multisig_recursion (m : GasMeter) (hm : m.infinite = true)
    (addr : Nat) (bits : List Bool) (sigs : List Sig) (keys : List PubKey)
    (ha : sigAligned (.multi bits sigs) (.multisigThreshold addr keys) = true) :
    (consumeSignatureVerificationGas m (.multi bits sigs)
        (.multisigThreshold addr keys) =
      ({ m with consumed := m.consumed + expectedMultiCost bits sigs keys }, .ok none)) ∧
    (∀ (a : Nat) (tn : String) (s : Sig) (m2 : GasMeter),
      consumeSignatureVerificationGas m2 s (.unrecognized a tn) =
        (m2, .ok (some (.invalidPubKey ("unrecognized public key type: " ++ tn))))) ∧
    (∀ (a : Nat) (tn : String) (s : Sig), expectedCost s (.unrecognized a tn) = 0) := by
  refine ⟨?_, ?_, ?_⟩
  · have := (consume_ok_all (sizeOf (Sig.multi bits sigs) +
        sizeOf (PubKey.multisigThreshold addr keys))).1
      (.multi bits sigs) (.multisigThreshold addr keys) (le_refl _) m hm ha
    simpa [expectedCost, resultOf] using this
  · intro a tn s m2
    simp [consumeSignatureVerificationGas]
  · intro a tn s
    cases s <;> simp [expectedCost]

/-- Witness for C10 at a concrete input: an outer 3-member multisig whose
first member is itself a 2-member multisig (59 + 100), second member an
unrecognized type (0, discarded error), third an ed25519 key (59). -/
theorem c10_witness :
    consumeSignatureVerificationGas newInfiniteGasMeter
      (.multi [true, true, true] [.multi [true, true] [.raw [], .raw []], .raw [], .raw []])
      (.multisigThreshold 9
        [.multisigThreshold 10 [.ed25519 1, .secp256k1 2], .unrecognized 11 "bn254",
          .ed25519 4]) =
      ({ newInfiniteGasMeter with consumed := 218 }, .ok none) := by
  have := (c10_multisig_recursion newInfiniteGasMeter rfl 9
      [true, true, true] [.multi [true, true] [.raw [], .raw []], .raw [], .raw []]
      [.multisigThreshold 10 [.ed25519 1, .secp256k1 2], .unrecognized 11 "bn254",
        .ed25519 4]
      (by simp [sigAligned, multiAligned])).1
  simpa [expectedMultiCost, expectedCost, newInfiniteGasMeter] using this

/-! ## Claim C9: mempool admission check -/

/-- C9: the mempool admission check rejects zero declared gas; with a
nonzero configured floor it rejects a fee that is not at least the floor in
every denomination, and passes otherwise; and within the pipeline it runs
exactly when the context is in CheckTx mode and not simulating, leaving the
context and chain state untouched when it rejects. -/
theorem c9_ensureSufficientMempoolFees (env : AnteEnv) (ctx : Ctx) (st : ChainState)
    (stdTx : StdTx) (simulate : Bool) :
    (stdTx.fee.gas = 0 →
      ensureSufficientMempoolFees ctx stdTx =
        some (.internal ("invalid gas supplied: " ++ toString stdTx.fee.gas))) ∧
    (0 < stdTx.fee.gas → Coins.isZero ctx.minimumFees = false →
      Coins.isAllGTE stdTx.fee.amount ctx.minimumFees = false →
      ensureSufficientMempoolFees ctx stdTx =
        some (.insufficientFee ("insufficient fee, got: " ++
          Coins.render stdTx.fee.amount ++ " required: " ++
          Coins.render ctx.minimumFees))) ∧
    (0 < stdTx.fee.gas →
      (Coins.isZero ctx.minimumFees = true ∨
        Coins.isAllGTE stdTx.fee.amount ctx.minimumFees = true) →
      ensureSufficientMempoolFees ctx stdTx = none) ∧
    (Coins.isAllGTE stdTx.fee.amount ctx.minimumFees = true ↔
      ∀ c ∈ ctx.minimumFees, c.2 ≤ Coins.amountOf stdTx.fee.amount c.1) ∧
    (ctx.isCheckTx = true → simulate = false →
      (∀ e, ensureSufficientMempoolFees ctx stdTx = some e →
        anteBody env ctx st (.std stdTx) simulate = (ctx, st, .ok (errResult e, true))) ∧
      (ensureSufficientMempoolFees ctx stdTx = none →
        anteBody env ctx st (.std stdTx) simulate = anteCore env ctx st stdTx simulate)) ∧
    ((ctx.isCheckTx = false ∨ simulate = true) →
      anteBody env ctx st (.std stdTx) simulate = anteCore env ctx st stdTx simulate) := by
  refine ⟨?_, ?_, ?_, ?_, ?_, ?_⟩
  · intro hg
    simp [ensureSufficientMempoolFees, hg]
  · intro hg hz hge
    simp [ensureSufficientMempoolFees, Nat.pos_iff_ne_zero.mp hg, hz, hge]
  · intro hg hpass
    rcases hpass with h | h <;>
      simp [ensureSufficientMempoolFees, Nat.pos_iff_ne_zero.mp hg, h]
  · simp [Coins.isAllGTE, List.all_eq_true, decide_eq_true_eq]
  · intro hc hs
    constructor
    · intro e he
      simp [anteBody, hc, hs, he]
    · intro he
      simp [anteBody, hc, hs, he]
  · intro hcs
    rcases hcs with h | h <;> simp [anteBody, h]

/-- Witness for C9 at a concrete input: floor 5iris, declared fee 3iris —
an insufficient-fee rejection. -/
theorem c9_witness :
    ensureSufficientMempoolFees
      { chainID := "", blockHeight := 1, isCheckTx := true, minimumFees := [("iris", 5)],
        gasMeter := newInfiniteGasMeter, signers := [] }
      { msgs := [], fee := { amount := [("iris", 3)], gas := 1 }, signatures := [],
        memo := "" } =
      some (.insufficientFee "insufficient fee, got: 3iris required: 5iris") := by
  have h := (c9_ensureSufficientMempoolFees
      { validateBasic := fun _ => none, getSigners := fun _ => [],
        stdSignBytes := fun _ _ _ _ _ _ => [], verify := fun _ _ _ => true }
      { chainID := "", blockHeight := 1, isCheckTx := true, minimumFees := [("iris", 5)],
        gasMeter := newInfiniteGasMeter, signers := [] }
      { store := fun _ => none, collectedFees := [] }
      { msgs := [], fee := { amount := [("iris", 3)], gas := 1 }, signatures := [],
        memo := "" } false).2.1 (by decide) (by decide) (by decide)
  rw [h]
  decide

/-! ## Claim C2: the recover boundary -/

/-- Concrete external collaborators for end-to-end runs: a single signer at
address 1, trivial sign bytes, all-accepting byte verification. -/
def testEnv : AnteEnv :=
  { validateBasic := fun _ => none, getSigners := fun _ => [1],
    stdSignBytes := fun _ _ _ _ _ _ => [], verify := fun _ _ _ => true }

/-- Concrete context: height 1, deliver mode, no fee floor. -/
def testCtx : Ctx :=
  { chainID := "test", blockHeight := 1, isCheckTx := false, minimumFees := [],
    gasMeter := newInfiniteGasMeter, signers := [] }

/-- Concrete signer account with a stored ed25519 key. -/
def testAcc0 : Account :=
  { address := 1, pubKey := some (.ed25519 1), coins := [], accountNumber := 0,
    sequence := 0 }

/-- Concrete chain state holding only `testAcc0`. -/
def testSt : ChainState :=
  { store := fun a => if a = 1 then some testAcc0 else none, collectedFees := [] }

/-- Concrete transaction declaring only 10 gas (less than one ed25519
verification). -/
def lowGasTx : Tx :=
  .std
    { msgs := [], fee := { amount := [], gas := 10 },
      signatures :=
        [{ pubKey := none, signature := .raw [], accountNumber := 0, sequence := 0 }],
      memo := "" }

/-- C2: the recover boundary converts exactly the out-of-gas panic into a
non-panicking out-of-gas result whose `gas_wanted` is the transaction's
declared limit and whose `gas_used` is read from the installed meter, with
`abort = true`; any other panic escapes the ante handler unchanged. -/
theorem c2_anteHandler_recover (env : AnteEnv) (ctx : Ctx) (st : ChainState)
    (tx : Tx) (simulate : Bool) (ctx2 : Ctx) (st2 : ChainState) (p : PanicKind)
    (hbody : anteBody env ctx st tx simulate = (ctx2, st2, .error p)) :
    (∀ d, p = .outOfGas d →
      anteHandler env ctx st tx simulate =
        .ok (ctx2, st2,
          { err := some (.outOfGas ("out of gas in location: " ++ d)),
            gasWanted := tx.gas, gasUsed := ctx2.gasMeter.consumed }, true)) ∧
    (∀ msg, p = .other msg →
      anteHandler env ctx st tx simulate = .error (.other msg)) := by
  constructor
  · intro d hd
    subst hd
    simp [anteHandler, hbody]
  · intro msg hmsg
    subst hmsg
    simp [anteHandler, hbody]

/-- Witness for C2 at a concrete input: a full run that exhausts its 10-gas
budget inside signature verification and is recovered as a structured
out-of-gas result. -/
theorem c2_witness :
    anteHandler testEnv testCtx testSt lowGasTx false =
      .ok ({ testCtx with gasMeter := { infinite := false, limit := 10, consumed := 59 } },
        testSt,
        { err := some (.outOfGas "out of gas in location: ante verify: ed25519"),
          gasWanted := 10, gasUsed := 59 }, true) := by
  have hbody : anteBody testEnv testCtx testSt lowGasTx false =
      ({ testCtx with gasMeter := { infinite := false, limit := 10, consumed := 59 } },
        testSt, .error (.outOfGas "ante verify: ed25519")) := by
    simp [anteBody, anteCore, testEnv, testCtx, testSt, lowGasTx, testAcc0, setGasMeter,
      newGasMeterWithBase, effectiveGasLimit, gasShift, getSignerAccs, getSignBytesList,
      validateAccNumAndSequence, Coins.isZero, signerLoop, processSig, processPubKey,
      consumeSignatureVerificationGas, GasMeter.consumeGas, errResult, ed25519VerifyCost]
  have h := (c2_anteHandler_recover testEnv testCtx testSt lowGasTx false _ _ _ hbody).1
    "ante verify: ed25519" rfl
  simpa [lowGasTx, Tx.gas] using h

/-! ## Coins arithmetic lemmas -/

lemma amountOf_cons (c : String × Int) (cs : Coins) (d : String) :
    Coins.amountOf (c :: cs) d = (if c.1 = d then c.2 else 0) + Coins.amountOf cs d := by
  by_cases h : c.1 = d <;> simp [Coins.amountOf, List.filter_cons, h]

lemma amountOf_eq_zero_of_not_mem (cs : Coins) (d : String)
    (h : d ∉ cs.map (fun c => c.1)) : Coins.amountOf cs d = 0 := by
  induction cs with
  | nil => simp [Coins.amountOf]
  | cons c t ih =>
    simp only [List.map_cons, List.mem_cons] at h
    push_neg at h
    rw [amountOf_cons, if_neg (Ne.symm h.1), ih h.2]
    simp

lemma mem_of_amountOf_ne_zero (cs : Coins) (d : String)
    (h : Coins.amountOf cs d ≠ 0) : d ∈ cs.map (fun c => c.1) := by
  by_contra hmem
  exact h (amountOf_eq_zero_of_not_mem cs d hmem)

lemma amountOf_map_key (ds : List String) (f : String → Int) (d : String)
    (hnd : ds.Nodup) :
    Coins.amountOf (ds.map (fun x => (x, f x))) d = if d ∈ ds then f d else 0 := by
  induction ds with
  | nil => simp [Coins.amountOf]
  | cons a t ih =>
    rw [List.nodup_cons] at hnd
    rw [List.map_cons, amountOf_cons]
    by_cases hda : a = d
    · subst hda
      have : Coins.amountOf (t.map (fun x => (x, f x))) a = 0 := by
        rw [ih hnd.2, if_neg hnd.1]
      simp [this]
    · rw [if_neg hda, ih hnd.2]
      simp [Ne.symm hda, hda]

lemma mem_denomsOf_left (a b : Coins) (d : String)
    (h : Coins.amountOf a d ≠ 0) : d ∈ Coins.denomsOf a b := by
  have := mem_of_amountOf_ne_zero a d h
  simp only [Coins.denomsOf, List.mem_dedup, List.mem_append]
  exact Or.inl this

lemma mem_denomsOf_right (a b : Coins) (d : String)
    (h : Coins.amountOf b d ≠ 0) : d ∈ Coins.denomsOf a b := by
  have := mem_of_amountOf_ne_zero b d h
  simp only [Coins.denomsOf, List.mem_dedup, List.mem_append]
  exact Or.inr this

lemma safeSub_neg_iff (a b : Coins) :
    (Coins.safeSub a b).2 = true ↔
      ∃ d, Coins.amountOf a d < Coins.amountOf b d := by
  constructor
  · intro h
    simp only [Coins.safeSub, List.any_eq_true, List.mem_map] at h
    rcases h with ⟨c, ⟨d, hd, hc⟩, hneg⟩
    subst hc
    simp only [decide_eq_true_eq] at hneg
    exact ⟨d, by omega⟩
  · rintro ⟨d, hd⟩
    have hmem : d ∈ Coins.denomsOf a b := by
      by_cases hb : Coins.amountOf b d = 0
      · exact mem_denomsOf_left a b d (by omega)
      · exact mem_denomsOf_right a b d hb
    simp only [Coins.safeSub, List.any_eq_true, List.mem_map]
    exact ⟨(d, Coins.amountOf a d - Coins.amountOf b d), ⟨d, hmem, rfl⟩,
      by simp; omega⟩

lemma safeSub_amountOf (a b : Coins) (d : String) :
    Coins.amountOf (Coins.safeSub a b).1 d =
      Coins.amountOf a d - Coins.amountOf b d := by
  have hnd : (Coins.denomsOf a b).Nodup := List.nodup_dedup _
  simp only [Coins.safeSub]
  rw [amountOf_map_key _ _ _ hnd]
  by_cases hmem : d ∈ Coins.denomsOf a b
  · rw [if_pos hmem]
  · rw [if_neg hmem]
    have ha : Coins.amountOf a d = 0 := by
      by_contra h
      exact hmem (mem_denomsOf_left a b d h)
    have hb : Coins.amountOf b d = 0 := by
      by_contra h
      exact hmem (mem_denomsOf_right a b d h)
    omega

lemma safeSub_nonneg (a b : Coins) (h : (Coins.safeSub a b).2 = false) (d : String) :
    0 ≤ Coins.amountOf (Coins.safeSub a b).1 d := by
  have hnd : (Coins.denomsOf a b).Nodup := List.nodup_dedup _
  simp only [Coins.safeSub, List.any_eq_false] at h
  simp only [Coins.safeSub]
  rw [amountOf_map_key _ _ _ hnd]
  by_cases hmem : d ∈ Coins.denomsOf a b
  · rw [if_pos hmem]
    have := h (d, Coins.amountOf a d - Coins.amountOf b d) (by
      simp only [List.mem_map]
      exact ⟨d, hmem, rfl⟩)
    simp at this
    omega
  · rw [if_neg hmem]

lemma deductFees_ok (acc : Account) (fee : StdFee)
    (hneg : (Coins.safeSub acc.coins fee.amount).2 = false) :
    deductFees acc fee =
      .ok { acc with coins := (Coins.safeSub acc.coins fee.amount).1 } := by
  unfold deductFees
  rcases hp : Coins.safeSub acc.coins fee.amount with ⟨nc, flag⟩
  rw [hp] at hneg
  simp at hneg
  subst hneg
  simp [hp]

lemma deductFees_err (acc : Account) (fee : StdFee)
    (hneg : (Coins.safeSub acc.coins fee.amount).2 = true) :
    deductFees acc fee =
      .error (.insufficientFunds ("account balance [" ++ Coins.render acc.coins ++
        "] is not enough to cover fee [" ++ Coins.render fee.amount ++ "]")) := by
  unfold deductFees
  rcases hp : Coins.safeSub acc.coins fee.amount with ⟨nc, flag⟩
  rw [hp] at hneg
  simp at hneg
  subst hneg
  simp [hp]

/-- A complete successful single-signer run of the pipeline: height
non-genesis, deliver mode, matching account number and sequence, stored
key, signature verification gas fitting the meter, valid signature bytes,
and either a zero fee or a sufficient balance.  The run debits the fee from
the (only) signer, forwards it to the collector, sets the key, increments
the sequence, and persists the account. -/
lemma anteRun_single (env : AnteEnv) (ctx : Ctx) (st : ChainState) (stdTx : StdTx)
    (addr : Nat) (acc : Account) (sig : StdSignature) (pk : PubKey) (m2 : GasMeter)
    (h1 : ctx.isCheckTx = false)
    (h2 : ctx.blockHeight ≠ 0)
    (h3 : env.getSigners stdTx.msgs = [addr])
    (h4 : stdTx.signatures = [sig])
    (h5 : st.store addr = some acc)
    (h6 : env.validateBasic stdTx = none)
    (h7 : sig.accountNumber = acc.accountNumber)
    (h8 : sig.sequence = acc.sequence)
    (h9 : acc.pubKey = some pk)
    (h10 : consumeSignatureVerificationGas (newGasMeterWithBase stdTx.fee.gas)
      sig.signature pk = (m2, .ok none))
    (h11 : env.verify pk (env.stdSignBytes ctx.chainID sig.accountNumber sig.sequence
      stdTx.fee stdTx.msgs stdTx.memo) sig.signature = true)
    (hfee : Coins.isZero stdTx.fee.amount = true ∨
      (Coins.isZero stdTx.fee.amount = false ∧
        (Coins.safeSub acc.coins stdTx.fee.amount).2 = false)) :
    anteHandler env ctx st (.std stdTx) false =
      .ok ({ ctx with
          gasMeter := m2,
          signers := [{ (if Coins.isZero stdTx.fee.amount then acc
              else { acc with coins := (Coins.safeSub acc.coins stdTx.fee.amount).1 }) with
            pubKey := some pk, sequence := acc.sequence + 1 }] },
        { st with
          store := setAccount st.store
            { (if Coins.isZero stdTx.fee.amount then acc
               else { acc with coins := (Coins.safeSub acc.coins stdTx.fee.amount).1 }) with
              pubKey := some pk, sequence := acc.sequence + 1 },
          collectedFees := if Coins.isZero stdTx.fee.amount then st.collectedFees
            else Coins.add st.collectedFees stdTx.fee.amount },
        { err := none, gasWanted := stdTx.fee.gas, gasUsed := 0 }, false) := by
  rw [h7, h8] at h11
  rcases hfee with hz | ⟨hnz, hneg⟩
  · simp [anteHandler, anteBody, anteCore, h1, h2, h3, h4, h5, h6, h7, h8, h9, h10, h11,
      hz, setGasMeter, getSignerAccs, getSignBytesList, validateAccNumAndSequence,
      signerLoop, processSig, processPubKey, errResult]
  · have hd := deductFees_ok acc stdTx.fee hneg
    simp [anteHandler, anteBody, anteCore, h1, h2, h3, h4, h5, h6, h7, h8, h9, h10, h11,
      hnz, hd, setGasMeter, getSignerAccs, getSignBytesList, validateAccNumAndSequence,
      signerLoop, processSig, processPubKey, errResult]

/-! ## Claim C4: fee deduction -/

/-- C4: `deductFees` rejects with insufficient-funds exactly when some
denomination's balance is below the fee (leaving the account unmutated —
the error carries no account), and on success debits exactly the fee with
no negative balance; in the pipeline the fee is deducted only when nonzero,
only from the first (sole) signer, and is forwarded to the fee collector,
while a zero fee leaves balances and the collector untouched. -/
theorem c4_fee_deduction (acc : Account) (fee : StdFee) :
    ((Coins.safeSub acc.coins fee.amount).2 = true ↔
      ∃ d, Coins.amountOf acc.coins d < Coins.amountOf fee.amount d) ∧
    ((Coins.safeSub acc.coins fee.amount).2 = true →
      deductFees acc fee =
        .error (.insufficientFunds ("account balance [" ++ Coins.render acc.coins ++
          "] is not enough to cover fee [" ++ Coins.render fee.amount ++ "]"))) ∧
    ((Coins.safeSub acc.coins fee.amount).2 = false →
      deductFees acc fee =
        .ok { acc with coins := (Coins.safeSub acc.coins fee.amount).1 } ∧
      (∀ d, Coins.amountOf (Coins.safeSub acc.coins fee.amount).1 d =
        Coins.amountOf acc.coins d - Coins.amountOf fee.amount d) ∧
      (∀ d, 0 ≤ Coins.amountOf (Coins.safeSub acc.coins fee.amount).1 d)) ∧
    (∀ (env : AnteEnv) (ctx : Ctx) (st : ChainState) (stdTx : StdTx) (addr : Nat)
       (sig : StdSignature) (pk : PubKey) (m2 : GasMeter),
      ctx.isCheckTx = false → ctx.blockHeight ≠ 0 →
      env.getSigners stdTx.msgs = [addr] → stdTx.signatures = [sig] →
      st.store addr = some acc → env.validateBasic stdTx = none →
      sig.accountNumber = acc.accountNumber → sig.sequence = acc.sequence →
      acc.pubKey = some pk →
      consumeSignatureVerificationGas (newGasMeterWithBase stdTx.fee.gas)
        sig.signature pk = (m2, .ok none) →
      env.verify pk (env.stdSignBytes ctx.chainID sig.accountNumber sig.sequence
        stdTx.fee stdTx.msgs stdTx.memo) sig.signature = true →
      acc.address = addr →
      (Coins.isZero stdTx.fee.amount = false →
        (Coins.safeSub acc.coins stdTx.fee.amount).2 = false →
        ∃ (acc2 : Account) (st2 : ChainState),
          anteHandler env ctx st (.std stdTx) false =
            .ok ({ ctx with gasMeter := m2, signers := [acc2] }, st2,
              { err := none, gasWanted := stdTx.fee.gas, gasUsed := 0 }, false) ∧
          st2.store addr = some acc2 ∧
          acc2.coins = (Coins.safeSub acc.coins stdTx.fee.amount).1 ∧
          st2.collectedFees = Coins.add st.collectedFees stdTx.fee.amount) ∧
      (Coins.isZero stdTx.fee.amount = true →
        ∃ (acc2 : Account) (st2 : ChainState),
          anteHandler env ctx st (.std stdTx) false =
            .ok ({ ctx with gasMeter := m2, signers := [acc2] }, st2,
              { err := none, gasWanted := stdTx.fee.gas, gasUsed := 0 }, false) ∧
          st2.store addr = some acc2 ∧
          acc2.coins = acc.coins ∧
          st2.collectedFees = st.collectedFees)) := by
  refine ⟨safeSub_neg_iff acc.coins fee.amount, deductFees_err acc fee, ?_, ?_⟩
  · intro hneg
    exact ⟨deductFees_ok acc fee hneg,
      fun d => safeSub_amountOf acc.coins fee.amount d,
      fun d => safeSub_nonneg acc.coins fee.amount hneg d⟩
  · intro env ctx st stdTx addr sig pk m2 h1 h2 h3 h4 h5 h6 h7 h8 h9 h10 h11 haddr
    constructor
    · intro hnz hneg
      have hrun := anteRun_single env ctx st stdTx addr acc sig pk m2 h1 h2 h3 h4 h5 h6
        h7 h8 h9 h10 h11 (Or.inr ⟨hnz, hneg⟩)
      refine ⟨{ acc with
          coins := (Coins.safeSub acc.coins stdTx.fee.amount).1,
          pubKey := some pk, sequence := acc.sequence + 1 },
        { st with
          store := setAccount st.store { acc with
            coins := (Coins.safeSub acc.coins stdTx.fee.amount).1,
            pubKey := some pk, sequence := acc.sequence + 1 },
          collectedFees := Coins.add st.collectedFees stdTx.fee.amount },
        ?_, ?_, rfl, rfl⟩
      · simpa [hnz] using hrun
      · simp [setAccount, haddr]
    · intro hz
      have hrun := anteRun_single env ctx st stdTx addr acc sig pk m2 h1 h2 h3 h4 h5 h6
        h7 h8 h9 h10 h11 (Or.inl hz)
      refine ⟨{ acc with pubKey := some pk, sequence := acc.sequence + 1 },
        { st with
          store := setAccount st.store
            { acc with pubKey := some pk, sequence := acc.sequence + 1 } },
        ?_, ?_, rfl, rfl⟩
      · simpa [hz] using hrun
      · simp [setAccount, haddr]

/-- Concrete fee-paying signer: 100iris balance, sequence 3. -/
def feeAcc1 : Account :=
  { address := 1, pubKey := some (.ed25519 1), coins := [("iris", 100)],
    accountNumber := 0, sequence := 3 }

/-- Concrete chain state holding only `feeAcc1`. -/
def feeSt : ChainState :=
  { store := fun a => if a = 1 then some feeAcc1 else none, collectedFees := [] }

/-- Concrete transaction paying 10iris with 200 declared gas. -/
def feeStdTx : StdTx :=
  { msgs := [], fee := { amount := [("iris", 10)], gas := 200 },
    signatures :=
      [{ pubKey := none, signature := .raw [], accountNumber := 0, sequence := 3 }],
    memo := "" }

/-- Witness for C4 at a concrete input: the 10iris fee is debited from the
sole signer and forwarded to the collector. -/
theorem c4_witness :
    ∃ (acc2 : Account) (st2 : ChainState),
      anteHandler testEnv testCtx feeSt (.std feeStdTx) false =
        .ok ({ testCtx with
            gasMeter := { infinite := false, limit := 200, consumed := 59 },
            signers := [acc2] }, st2,
          { err := none, gasWanted := 200, gasUsed := 0 }, false) ∧
      st2.store 1 = some acc2 ∧
      acc2.coins = (Coins.safeSub feeAcc1.coins feeStdTx.fee.amount).1 ∧
      st2.collectedFees = Coins.add feeSt.collectedFees feeStdTx.fee.amount := by
  have h := ((c4_fee_deduction feeAcc1 feeStdTx.fee).2.2.2 testEnv testCtx feeSt feeStdTx
      1 { pubKey := none, signature := .raw [], accountNumber := 0, sequence := 3 }
      (.ed25519 1) { infinite := false, limit := 200, consumed := 59 }
      rfl (by decide) rfl rfl rfl rfl rfl rfl rfl
      (by simp [consumeSignatureVerificationGas, newGasMeterWithBase, effectiveGasLimit,
        gasShift, GasMeter.consumeGas, ed25519VerifyCost, feeStdTx])
      rfl rfl).1 rfl (by decide)
  exact h

/-! ## Claim C5: sequence increment and replay protection -/

/-- C5: a successful run increments the sole signer's sequence by exactly 1
and persists the updated account, so resubmitting the same signed
transaction against the resulting state is rejected with an
invalid-sequence error naming got = the claimed (old) sequence and
expected = the incremented one. -/
theorem c5_replay (env : AnteEnv) (ctx : Ctx) (st : ChainState) (stdTx : StdTx)
    (addr : Nat) (acc : Account) (sig : StdSignature) (pk : PubKey) (m2 : GasMeter)
    (h1 : ctx.isCheckTx = false)
    (h2 : ctx.blockHeight ≠ 0)
    (h3 : env.getSigners stdTx.msgs = [addr])
    (h4 : stdTx.signatures = [sig])
    (h5 : st.store addr = some acc)
    (h6 : env.validateBasic stdTx = none)
    (h7 : sig.accountNumber = acc.accountNumber)
    (h8 : sig.sequence = acc.sequence)
    (h9 : acc.pubKey = some pk)
    (h10 : consumeSignatureVerificationGas (newGasMeterWithBase stdTx.fee.gas)
      sig.signature pk = (m2, .ok none))
    (h11 : env.verify pk (env.stdSignBytes ctx.chainID sig.accountNumber sig.sequence
      stdTx.fee stdTx.msgs stdTx.memo) sig.signature = true)
    (haddr : acc.address = addr)
    (hfee : Coins.isZero stdTx.fee.amount = true ∨
      (Coins.isZero stdTx.fee.amount = false ∧
        (Coins.safeSub acc.coins stdTx.fee.amount).2 = false)) :
    ∃ (acc2 : Account) (st2 : ChainState),
      anteHandler env ctx st (.std stdTx) false =
        .ok ({ ctx with gasMeter := m2, signers := [acc2] }, st2,
          { err := none, gasWanted := stdTx.fee.gas, gasUsed := 0 }, false) ∧
      st2.store addr = some acc2 ∧
      acc2.sequence = acc.sequence + 1 ∧
      anteHandler env ctx st2 (.std stdTx) false =
        .ok ({ ctx with gasMeter := newGasMeterWithBase stdTx.fee.gas }, st2,
          errResult (.invalidSequence ("Invalid sequence. Got " ++
            toString sig.sequence ++ ", expected " ++ toString (acc.sequence + 1))),
          true) := by
  have hrun := anteRun_single env ctx st stdTx addr acc sig pk m2 h1 h2 h3 h4 h5 h6
    h7 h8 h9 h10 h11 hfee
  rcases hfee with hz | ⟨hnz, hneg⟩
  · refine ⟨{ acc with pubKey := some pk, sequence := acc.sequence + 1 },
      { st with
        store := setAccount st.store
          { acc with pubKey := some pk, sequence := acc.sequence + 1 } },
      ?_, ?_, rfl, ?_⟩
    · simpa [hz] using hrun
    · simp [setAccount, haddr]
    · have hlook : setAccount st.store
          { acc with pubKey := some pk, sequence := acc.sequence + 1 } addr =
          some { acc with pubKey := some pk, sequence := acc.sequence + 1 } := by
        simp [setAccount, haddr]
      simp [anteHandler, anteBody, anteCore, h1, h2, h3, h4, h6, h7, h8, hlook,
        setGasMeter, getSignerAccs, getSignBytesList, validateAccNumAndSequence,
        errResult, Nat.succ_ne_self]
  · refine ⟨{ acc with
        coins := (Coins.safeSub acc.coins stdTx.fee.amount).1,
        pubKey := some pk, sequence := acc.sequence + 1 },
      { st with
        store := setAccount st.store { acc with
          coins := (Coins.safeSub acc.coins stdTx.fee.amount).1,
          pubKey := some pk, sequence := acc.sequence + 1 },
        collectedFees := Coins.add st.collectedFees stdTx.fee.amount },
      ?_, ?_, rfl, ?_⟩
    · simpa [hnz] using hrun
    · simp [setAccount, haddr]
    · have hlook : setAccount st.store
          { acc with
            coins := (Coins.safeSub acc.coins stdTx.fee.amount).1,
            pubKey := some pk, sequence := acc.sequence + 1 } addr =
          some { acc with
            coins := (Coins.safeSub acc.coins stdTx.fee.amount).1,
            pubKey := some pk, sequence := acc.sequence + 1 } := by
        simp [setAccount, haddr]
      simp [anteHandler, anteBody, anteCore, h1, h2, h3, h4, h6, h7, h8, hlook,
        setGasMeter, getSignerAccs, getSignBytesList, validateAccNumAndSequence,
        errResult, Nat.succ_ne_self]

/-- Concrete zero-fee transaction with 100 declared gas, claimed sequence 0. -/
def replayStdTx : StdTx :=
  { msgs := [], fee := { amount := [], gas := 100 },
    signatures :=
      [{ pubKey := none, signature := .raw [], accountNumber := 0, sequence := 0 }],
    memo := "" }

/-- Witness for C5 at a concrete input: the first submission succeeds
(sequence 0 → 1) and the identical resubmission is rejected with
"Invalid sequence. Got 0, expected 1". -/
theorem c5_witness :
    ∃ (acc2 : Account) (st2 : ChainState),
      anteHandler testEnv testCtx testSt (.std replayStdTx) false =
        .ok ({ testCtx with
            gasMeter := { infinite := false, limit := 100, consumed := 59 },
            signers := [acc2] }, st2,
          { err := none, gasWanted := 100, gasUsed := 0 }, false) ∧
      st2.store 1 = some acc2 ∧
      acc2.sequence = 1 ∧
      anteHandler testEnv testCtx st2 (.std replayStdTx) false =
        .ok ({ testCtx with gasMeter := newGasMeterWithBase 100 }, st2,
          errResult (.invalidSequence "Invalid sequence. Got 0, expected 1"), true) := by
  have h := c5_replay testEnv testCtx testSt replayStdTx 1 testAcc0
      { pubKey := none, signature := .raw [], accountNumber := 0, sequence := 0 }
      (.ed25519 1) { infinite := false, limit := 100, consumed := 59 }
      rfl (by decide) rfl rfl rfl rfl rfl rfl rfl
      (by simp [consumeSignatureVerificationGas, newGasMeterWithBase, effectiveGasLimit,
        gasShift, GasMeter.consumeGas, ed25519VerifyCost, replayStdTx])
      rfl rfl (Or.inl rfl)
  rcases h with ⟨acc2, st2, hrun, hstore, hseq, hreplay⟩
  exact ⟨acc2, st2, hrun, hstore, by simpa [testAcc0] using hseq,
    by simpa [testAcc0] using hreplay⟩

end Irishub
